import Mathlib

/-!
Verification development for the rust-snmp-collector core: a shallow embedding
of the MIB resolver (src/src/snmp.rs), the bulk-walk driver (src/src/snmp.rs),
the per-device collector join (src/src/collector.rs), the metric formatter
(src/src/main.rs) and the Carbon sender (src/src/output.rs), together with
theorems settling the specification claims about them.

Machine integers (u64 OID components, u32/u64/i32 counters) never overflow in
the modelled code paths, so they are modelled as `Nat`/`Int`.  Wall-clock
timestamps are opaque to all modelled logic and are modelled as `Nat`.
-/

namespace SnmpCollector

/-- `snmp_mp::VarValue`: the tagged SNMP value variants carried in var binds.
The byte payload of `String` is only ever consumed through
`String::from_utf8_lossy`, so it is modelled post-decoding as a `String`
(the decoding itself is outside the core).  The crate's opaque-bytes variant is
not interpreted anywhere in the core and is subsumed by the catch-all cases of
every `match` below, exactly like `IpAddress`, `TimeTicks`, `Null`,
`NoSuchObject`. -/
inductive VarValue where
  | Null
  | Int (i : Int)
  | String (s : String)
  | ObjectId (oid : List Nat)
  | IpAddress (a b c d : Nat)
  | Counter (c : Nat)
  | UnsignedInt (u : Nat)
  | TimeTicks (t : Nat)
  | BigCounter (b : Nat)
  | NoSuchObject
  | NoSuchInstance
  | EndOfMibView
deriving DecidableEq

/-- `snmp_mp::VarBind`: an object identifier (its `Vec<u64>` of components) paired
with a value.  `VarBind::new` leaves the value unbound (`Null`). -/
structure VarBind where
  name : List Nat
  value : VarValue
deriving DecidableEq

/-- `mib_parser::Assignment`: a named assignment with an optional textual value of
the shape `"<kind> <parent> <n>"`. -/
structure Assignment where
  name : String
  value : Option String
deriving DecidableEq

/-- `mib_parser::Import`: symbol `name` imported from module `from_` (the source
field is called `from`, renamed because `from` is reserved in Lean). -/
structure ImportDecl where
  name : String
  from_ : String
deriving DecidableEq

/-- `mib_parser::Module`: name, assignments and imports.  The resolver in
src/src/snmp.rs reads only `assignments`. -/
structure MibModule where
  name : String
  assignments : List Assignment
  imports : List ImportDecl
deriving DecidableEq

/-- Rust `str::split(" ")` over the character sequence: pieces between single-space
separators, empty pieces preserved (structural-recursion reimplementation of
the library split so that terms reduce definitionally). -/
def splitSpaceAux : List Char → List (List Char)
  | [] => [[]]
  | c :: rest =>
    match splitSpaceAux rest with
    | [] => [[]]
    | cur :: done => if c = ' ' then [] :: cur :: done else (c :: cur) :: done

/-- Rust `str::split(" ")` producing strings. -/
def splitSpaceTokens (s : String) : List String :=
  (splitSpaceAux s.toList).map (fun l => String.mk l)

/-- The value of one decimal digit character, `none` for a non-digit. -/
def digitVal (c : Char) : Option Nat :=
  if c = '0' then some 0
  else if c = '1' then some 1
  else if c = '2' then some 2
  else if c = '3' then some 3
  else if c = '4' then some 4
  else if c = '5' then some 5
  else if c = '6' then some 6
  else if c = '7' then some 7
  else if c = '8' then some 8
  else if c = '9' then some 9
  else none

def parseNatAux : List Char → Nat → Option Nat
  | [], acc => some acc
  | c :: rest, acc =>
    match digitVal c with
    | none => none
    | some d => parseNatAux rest (acc * 10 + d)

/-- Rust `str::parse::<u64>()` on the inputs the resolver meets: a non-empty
string of decimal digits (the localized sub-identifiers of MIB files carry no
sign prefix and never overflow u64). -/
def parseNat (s : String) : Option Nat :=
  match s.toList with
  | [] => none
  | l => parseNatAux l 0

/-- The loop of `build_snmp_mib_tree` (src/src/snmp.rs:163).  Each iteration looks
up the first assignment named `oid_field` (`.filter(..).nth(0).unwrap()`),
splits its value on single spaces, parses token 2 as a number and pushes it,
then steps to the parent symbol (token 1); it stops exactly when the parent
symbol is `"mib-2"`.  The panicking unwraps (no matching assignment, absent
value, fewer than three tokens, unparsable number) are modelled as `none`.
The Rust loop never terminates when the parent chain revisits a symbol, which
the fuel argument models as `none`. -/
def build_snmp_mib_tree_go (m : MibModule) : Nat → String → List Nat → Option (List Nat)
  | 0, _, _ => none
  | fuel + 1, oid_field, tree_oid =>
    match m.assignments.find? (fun v => decide (v.name = oid_field)) with
    | none => none
    | some assignment =>
      match assignment.value with
      | none => none
      | some value =>
        match (splitSpaceTokens value).get? 1, (splitSpaceTokens value).get? 2 with
        | some parentName, some parentOidStr =>
          match parseNat parentOidStr with
          | none => none
          | some n =>
            if parentName = "mib-2" then some (tree_oid ++ [n])
            else build_snmp_mib_tree_go m fuel parentName (tree_oid ++ [n])
        | _, _ => none

/-- `build_snmp_mib_tree` (src/src/snmp.rs:163): resolve a symbol inside one
module by walking parent assignments up to the `"mib-2"` terminator, then
prepend the hard-coded mib-2 base `[1,3,6,1,2,1]` to the reversed collected
sub-identifiers.  The fuel `m.assignments.length + 1` covers every terminating
run of the source loop: a run that looks up the same symbol twice never
terminates (the step is deterministic), so terminating runs visit pairwise
distinct assignment names. -/
def build_snmp_mib_tree (oid_field : String) (m : MibModule) : Option (List Nat) :=
  (build_snmp_mib_tree_go m (m.assignments.length + 1) oid_field []).map
    (fun tree_oid => [1, 3, 6, 1, 2, 1] ++ tree_oid.reverse)

/-- A module whose single assignment chains directly to the `"mib-2"` terminator;
no symbol named `iso` exists anywhere in it. -/
def mib2OnlyModule : MibModule :=
  { name := "M"
    assignments := [{ name := "x", value := some "OBJECT-TYPE mib-2 5" }]
    imports := [] }

/-- Section 8 scenario 1 module: `IF-MIB` importing `mib-2` from `SNMPv2-SMI` and
defining `ifTable(2)` under `interfaces(2)` under `mib-2`. -/
def ifMibModule : MibModule :=
  { name := "IF-MIB"
    assignments :=
      [ { name := "interfaces", value := some "OBJECT-IDENTIFIER mib-2 2" }
      , { name := "ifTable", value := some "OBJECT-TYPE interfaces 2" } ]
    imports := [{ name := "mib-2", from_ := "SNMPv2-SMI" }] }

theorem build_snmp_mib_tree_go_mib2 (m : MibModule) :
    ∀ (fuel : Nat) (f : String) (acc t : List Nat),
      build_snmp_mib_tree_go m fuel f acc = some t →
      ∃ a ∈ m.assignments, ∃ v, a.value = some v ∧
        ((splitSpaceTokens v).get? 1) = some "mib-2" := by
  intro fuel
  induction fuel with
  | zero => intro f acc t h; simp [build_snmp_mib_tree_go] at h
  | succ n ih =>
    intro f acc t h
    rw [build_snmp_mib_tree_go] at h
    split at h
    · exact absurd h (by simp)
    · rename_i assignment hfind
      split at h
      · exact absurd h (by simp)
      · rename_i v hval
        split at h
        · rename_i parentName parentOidStr hget1 hget2
          split at h
          · exact absurd h (by simp)
          · split at h
            · rename_i hmib2
              refine ⟨assignment, List.mem_of_find?_eq_some hfind, v, hval, ?_⟩
              rw [hget1, hmib2]
            · exact ih _ _ _ h
        · exact absurd h (by simp)

/-- C1 (amended): for every symbolic OID that the resolver resolves successfully,
the bottom-up walk over parent assignments terminates only at the parent
symbol `"mib-2"` (some assignment on the walk has parent token `"mib-2"`), the
hard-coded mib-2 base `[1,3,6,1,2,1]` is prepended, and the produced numeric
OID therefore begins with `1`.  The mib-2 base, not the iso root, is the
hard-coded anchor of src/src/snmp.rs:163. -/
theorem c1_resolver_mib2_base (field : String) (m : MibModule) (oid : List Nat)
    (h : build_snmp_mib_tree field m = some oid) :
    (∃ rest, oid = [1, 3, 6, 1, 2, 1] ++ rest) ∧ oid.head? = some 1 ∧
      ∃ a ∈ m.assignments, ∃ v, a.value = some v ∧
        ((splitSpaceTokens v).get? 1) = some "mib-2" := by
  rw [build_snmp_mib_tree] at h
  rcases Option.map_eq_some'.mp h with ⟨t, hgo, hoid⟩
  refine ⟨⟨t.reverse, hoid.symm⟩, ?_, build_snmp_mib_tree_go_mib2 m _ _ _ _ hgo⟩
  rw [← hoid]
  rfl

/-- Witness for C1 (amended): the resolver succeeds on `mib2OnlyModule` with the
OID `[1,3,6,1,2,1,5]`, and the theorem's conclusions hold there. -/
theorem c1_resolver_mib2_base_witness :
    (∃ rest, [1, 3, 6, 1, 2, 1, 5] = [1, 3, 6, 1, 2, 1] ++ rest) ∧
      ([1, 3, 6, 1, 2, 1, 5] : List Nat).head? = some 1 ∧
      ∃ a ∈ mib2OnlyModule.assignments, ∃ v, a.value = some v ∧
        ((splitSpaceTokens v).get? 1) = some "mib-2" :=
  c1_resolver_mib2_base "x" mib2OnlyModule [1, 3, 6, 1, 2, 1, 5] (by decide)

/-- Counterexample to C1 as stated: the resolver succeeds on a module that
contains no symbol named `iso` at all, so the successful walk does not
terminate at `iso`, and the `[1,3,6,1,2,1]` prefix of the result is hard-coded
(src/src/snmp.rs:192) rather than derived from an `iso` assignment. -/
theorem c1_counterexample :
    build_snmp_mib_tree "x" mib2OnlyModule = some [1, 3, 6, 1, 2, 1, 5] ∧
      ∀ a ∈ mib2OnlyModule.assignments, a.name ≠ "iso" := by
  decide

/-- C8: in the section 8 scenario 1 configuration (module `IF-MIB` importing
`mib-2` from `SNMPv2-SMI` and defining `ifTable(2)` under `interfaces(2)`
under `mib-2`), resolving `"IF-MIB::ifTable"` yields exactly
`[1,3,6,1,2,1,2,2]`.  The source resolver never reads the import: it stops at
the parent symbol `"mib-2"` and prepends the hard-coded mib-2 base, which for
this scenario coincides with the OID the import chain denotes. -/
theorem c8_iftable_scenario :
    build_snmp_mib_tree "ifTable" ifMibModule = some [1, 3, 6, 1, 2, 1, 2, 2] := by
  decide

/-- `stat_result.rs`: one reading travelling from a collector to the formatter. -/
structure SnmpStatResult where
  device : String
  timestamp : Nat
  key : VarBind
  value : VarBind
deriving DecidableEq

/-- `output.rs` `CarbonMetricValue`: one metric handed to the Carbon sender. -/
structure CarbonMetricValue where
  timestamp : Nat
  metric : String
  value : String
deriving DecidableEq

/-- One `str::replace` pass with a single-character pattern, as used by
`sanitize_carbon` (src/src/output.rs:103): every occurrence of `c` in the
character sequence is replaced by `t`. -/
def replaceChar : List Char → Char → List Char → List Char
  | [], _, _ => []
  | a :: rest, c, t =>
    if a = c then t ++ replaceChar rest c t else a :: replaceChar rest c t

/-- `sanitize_carbon` (src/src/output.rs:103): the three replacements in their
source order, dash to underscore, then dot to double underscore, then slash to
underscore. -/
def sanitize_carbon (s : List Char) : List Char :=
  replaceChar (replaceChar (replaceChar s '-' ['_']) '.' ['_', '_']) '/' ['_']

/-- `format_key` (src/src/output.rs:107): sanitized device name and variable part,
unsanitized metric name, joined with dots. -/
def format_key (device_name variable_part metric_name : String) : String :=
  String.mk (sanitize_carbon device_name.toList) ++ "." ++
    String.mk (sanitize_carbon variable_part.toList) ++ "." ++ metric_name

/-- `var_numeric_value_to_string` (src/src/snmp.rs:198): the variants the formatter
can render for the key position.  The `String` payload is already modelled
post `from_utf8_lossy` decoding; `ObjectId` display is the dotted form. -/
def var_numeric_value_to_string : VarValue → Option String
  | VarValue.Int i => some (toString i)
  | VarValue.String s => some s
  | VarValue.ObjectId oid => some (String.intercalate "." (oid.map toString))
  | VarValue.Counter c => some (toString c)
  | VarValue.UnsignedInt u => some (toString u)
  | VarValue.BigCounter b => some (toString b)
  | _ => none

/-- Modelled from the spec: `var_bind_to_i128`, the formatter's metric-value
conversion called at src/src/main.rs:301 but not defined under src/
(src/src/snmp.rs still holds the older `var_bind_to_u64`).  Spec section 4.F
step 3: any of `Int|Counter|UnsignedInt|BigCounter` becomes a signed 128-bit
integer, anything else is rejected; the i32/u32/u64 payloads all embed into
the signed 128-bit range without loss. -/
def var_bind_to_i128 (v : VarBind) : Option Int :=
  match v.value with
  | VarValue.Int i => some i
  | VarValue.Counter c => some (c : Int)
  | VarValue.UnsignedInt u => some (u : Int)
  | VarValue.BigCounter b => some (b : Int)
  | _ => none

/-- Rust `str::split("::")`, scanning left to right for non-overlapping `"::"`
matches (structural reimplementation over characters; `acc` holds the current
piece reversed). -/
def splitColonsGo : List Char → List Char → List (List Char)
  | [], acc => [acc.reverse]
  | ':' :: ':' :: rest, acc => acc.reverse :: splitColonsGo rest []
  | c :: rest, acc => splitColonsGo rest (c :: acc)

/-- Rust `str::split("::")` producing strings. -/
def splitColons (s : String) : List String :=
  (splitColonsGo s.toList []).map (fun l => String.mk l)

/-- The formatter's reverse lookup (src/src/main.rs:278): the first oid-map entry
whose numeric OID equals the given components, yielding its symbolic name.
`find_map` over the hash map is modelled as `find?` over an association
list. -/
def lookupValName (map : List (String × VarBind)) (oidInit : List Nat) : Option String :=
  (map.find? (fun kv => kv.2.name == oidInit)).map (fun kv => kv.1)

/-- The per-reading work of the formatter loop after the reverse lookup succeeded
(src/src/main.rs:288): take piece 1 of the symbolic name split on `"::"`
(`.nth(1).unwrap()`, `none` models the panic), render the key value (`none`
from the renderer means the reading is dropped with a warning, modelled
`some none`), convert the metric value (same dropping), then build the Carbon
metric from the sanitized key and decimal value. -/
def processAfterLookup (full_val_name : String) (r : SnmpStatResult) :
    Option (Option CarbonMetricValue) :=
  match (splitColons full_val_name).get? 1 with
  | none => none
  | some val_name =>
    match var_numeric_value_to_string r.key.value with
    | none => some none
    | some key_value =>
      match var_bind_to_i128 r.value with
      | none => some none
      | some v =>
        some (some { timestamp := r.timestamp
                     metric := format_key r.device key_value val_name
                     value := toString v })

/-- One iteration of the formatter loop (src/src/main.rs:273): drop the last OID
component of the value bind (`split_last().unwrap()`, `none` models the panic
on an empty OID), reverse-look up the symbolic name (`.unwrap()`, `none`
models the panic when no entry matches), then process the reading.
`some none` is a reading dropped with a warning, `some (some m)` a metric
forwarded to the Carbon channel. -/
def processReading (map : List (String × VarBind)) (r : SnmpStatResult) :
    Option (Option CarbonMetricValue) :=
  if r.value.name = [] then none
  else
    match lookupValName map r.value.name.dropLast with
    | none => none
    | some full => processAfterLookup full r

/-- C2's wording of the integer-typed variants: `Int`, `Counter`, `UnsignedInt`,
`BigCounter`. -/
def isIntegerVariant : VarValue → Bool
  | VarValue.Int _ => true
  | VarValue.Counter _ => true
  | VarValue.UnsignedInt _ => true
  | VarValue.BigCounter _ => true
  | _ => false

/-- C2: once a reading reaches the formatter's value-conversion step (the reverse
lookup found `full`, the symbolic name splits, and the key renders), a value
bind whose value is `Int`, `Counter`, `UnsignedInt` or `BigCounter` is
converted to a signed 128-bit integer and a Carbon metric carrying its decimal
rendering is forwarded; any other variant makes the formatter drop the reading
with a warning, forwarding nothing. -/
theorem c2_formatter_numeric (map : List (String × VarBind)) (r : SnmpStatResult)
    (full key_value val_name : String)
    (h0 : r.value.name ≠ [])
    (h1 : lookupValName map r.value.name.dropLast = some full)
    (h2 : (splitColons full).get? 1 = some val_name)
    (h3 : var_numeric_value_to_string r.key.value = some key_value) :
    (isIntegerVariant r.value.value = true →
        ∃ v, var_bind_to_i128 r.value = some v ∧
          processReading map r =
            some (some { timestamp := r.timestamp
                         metric := format_key r.device key_value val_name
                         value := toString v })) ∧
      (isIntegerVariant r.value.value = false → processReading map r = some none) := by
  have h2i : (splitColons full)[1]? = some val_name := by
    simpa using h2
  have hp : processReading map r = processAfterLookup full r := by
    simp [processReading, h0, h1]
  have hrun : ∀ z : Int, var_bind_to_i128 r.value = some z →
      processReading map r =
        some (some { timestamp := r.timestamp
                     metric := format_key r.device key_value val_name
                     value := toString z }) := by
    intro z hz
    rw [hp]
    simp [processAfterLookup, h2i, h3, hz]
  have hdrop : var_bind_to_i128 r.value = none → processReading map r = some none := by
    intro hz
    rw [hp]
    simp [processAfterLookup, h2i, h3, hz]
  constructor
  · intro hnum
    cases hv : r.value.value <;> simp [hv, isIntegerVariant] at hnum
    case Int i =>
      exact ⟨i, by simp [var_bind_to_i128, hv], hrun i (by simp [var_bind_to_i128, hv])⟩
    case Counter c =>
      exact ⟨(c : Int), by simp [var_bind_to_i128, hv], hrun _ (by simp [var_bind_to_i128, hv])⟩
    case UnsignedInt u =>
      exact ⟨(u : Int), by simp [var_bind_to_i128, hv], hrun _ (by simp [var_bind_to_i128, hv])⟩
    case BigCounter b =>
      exact ⟨(b : Int), by simp [var_bind_to_i128, hv], hrun _ (by simp [var_bind_to_i128, hv])⟩
  · intro hnum
    cases hv : r.value.value <;> simp [hv, isIntegerVariant] at hnum <;>
      exact hdrop (by simp [var_bind_to_i128, hv])

def c2exMap : List (String × VarBind) :=
  [("IF-MIB::ifInOctets", { name := [1, 3, 6, 1, 2, 1, 2, 2, 1, 10], value := VarValue.Null })]

def c2exReading : SnmpStatResult :=
  { device := "d"
    timestamp := 0
    key := { name := [4, 1], value := VarValue.Counter 7 }
    value := { name := [1, 3, 6, 1, 2, 1, 2, 2, 1, 10, 1], value := VarValue.BigCounter 42 } }

/-- Witness for C2: a concrete `BigCounter 42` reading against a one-entry oid map
is converted and forwarded as the decimal metric. -/
theorem c2_formatter_numeric_witness :
    ∃ v, var_bind_to_i128 c2exReading.value = some v ∧
      processReading c2exMap c2exReading =
        some (some { timestamp := c2exReading.timestamp
                     metric := format_key c2exReading.device "7" "ifInOctets"
                     value := toString v }) :=
  (c2_formatter_numeric c2exMap c2exReading "IF-MIB::ifInOctets" "7" "ifInOctets"
      (by decide) (by decide) (by decide) (by decide)).1 (by decide)

/-- C10: the formatter's reverse OID lookup is partial.  If no oid-map entry's
numeric OID equals the reading's value OID with its last component removed,
the processing loop panics (`none`); if such an entry exists (and the value
OID is non-empty so that removing the last component is defined), the lookup
returns that entry's symbolic name and processing continues past the lookup
step rather than panicking there. -/
theorem c10_reverse_lookup (map : List (String × VarBind)) (r : SnmpStatResult) :
    ((map.find? (fun kv => kv.2.name == r.value.name.dropLast)) = none →
        processReading map r = none) ∧
      ∀ kv, (map.find? (fun kv => kv.2.name == r.value.name.dropLast)) = some kv →
        r.value.name ≠ [] →
        lookupValName map r.value.name.dropLast = some kv.1 ∧
          processReading map r = processAfterLookup kv.1 r := by
  constructor
  · intro hf
    by_cases hn : r.value.name = []
    · simp [processReading, hn]
    · simp [processReading, hn, lookupValName, hf]
  · intro kv hf hn
    refine ⟨by simp [lookupValName, hf], ?_⟩
    simp [processReading, hn, lookupValName, hf]

/-- Witness for C10: with an empty oid map the concrete reading makes the
formatter loop panic at the reverse lookup. -/
theorem c10_reverse_lookup_witness : processReading [] c2exReading = none :=
  (c10_reverse_lookup [] c2exReading).1 (by decide)

theorem replaceChar_of_not_mem (c : Char) (t : List Char) :
    ∀ s : List Char, c ∉ s → replaceChar s c t = s := by
  intro s
  induction s with
  | nil => intro _; rfl
  | cons a rest ih =>
    intro h
    have ha : a ≠ c := fun e => h (e ▸ List.mem_cons_self a rest)
    simp [replaceChar, ha, ih (fun hc => h (List.mem_cons_of_mem a hc))]

/-- C9: the Carbon sanitizer applies its substitutions in the fixed source order
(dash to underscore, then dot to double underscore, then slash to underscore),
so `sanitize("a-b.c/d") = "a_b__c_d"`, and it is idempotent on every string
containing none of the three replaced characters. -/
theorem c9_sanitize :
    sanitize_carbon "a-b.c/d".toList = "a_b__c_d".toList ∧
      ∀ s : List Char, '-' ∉ s → '.' ∉ s → '/' ∉ s →
        sanitize_carbon (sanitize_carbon s) = sanitize_carbon s := by
  constructor
  · decide
  · intro s h1 h2 h3
    have hs : sanitize_carbon s = s := by
      unfold sanitize_carbon
      rw [replaceChar_of_not_mem _ _ s h1, replaceChar_of_not_mem _ _ s h2,
        replaceChar_of_not_mem _ _ s h3]
    rw [hs]
    exact hs

/-- Witness for C9: idempotence at the concrete replaced-character-free string
`"abc"`. -/
theorem c9_sanitize_witness :
    sanitize_carbon (sanitize_carbon "abc".toList) = sanitize_carbon "abc".toList :=
  c9_sanitize.2 "abc".toList (by decide) (by decide) (by decide)

/-- Strict lexicographic order on OIDs: the derived `Ord` of the component
`Vec<u64>` (a proper prefix is smaller). -/
def oidLt : List Nat → List Nat → Bool
  | [], [] => false
  | [], _ :: _ => true
  | _ :: _, [] => false
  | a :: ra, b :: rb => if a < b then true else if b < a then false else oidLt ra rb

/-- `a >= b` on OIDs, the comparison at src/src/snmp.rs:121. -/
def oidGe (a b : List Nat) : Bool := ! oidLt a b

/-- Modelled from the spec: `msnmp::request::next_sibling` (the msnmp crate is not
under src/).  Spec section 3: the OID obtained by incrementing the last
sub-identifier by one. -/
def next_sibling : List Nat → List Nat
  | [] => []
  | [a] => [a + 1]
  | a :: b :: rest => a :: next_sibling (b :: rest)

/-- The walk-termination test at src/src/snmp.rs:121: the binding's OID has left
the walked subtree (`name >= end_oid`) or its value is `EndOfMibView`. -/
def bulkTrigger (endOid : List Nat) (b : VarBind) : Bool :=
  oidGe b.name endOid || decide (b.value = VarValue.EndOfMibView)

/-- The `for var_bind in binds` loop at src/src/snmp.rs:120: keep bindings in
order up to the first triggering one; the Bool records whether a trigger was
hit (in which case the walk returns immediately). -/
def bulkScan (endOid : List Nat) : List VarBind → List VarBind × Bool
  | [] => ([], false)
  | b :: rest =>
    if bulkTrigger endOid b then ([], true)
    else
      let next := bulkScan endOid rest
      (b :: next.1, next.2)

/-- The loop of `snmp_bulkwalk` (src/src/snmp.rs:97), one iteration per modelled
response.  `req` is the OID of the outstanding `GetBulkRequest`'s single var
bind and `acc` the accumulated result; each element of `responses` is the
`get_var_binds` view of one successfully transported response, `none` meaning
the response carries no var-bind list (the walk then returns what it has).
On `some binds` the bindings are scanned in order; a trigger ends the whole
walk with the bindings before it appended, otherwise all bindings are kept and
the next request starts at the OID of the last binding
(`binds.last().unwrap()` on an empty list is a panic, modelled `none`).
Exhausting the modelled responses while a request is outstanding is also
`none`.  Receipt timestamps are irrelevant to the walk logic and omitted;
transport errors propagate to the caller and are not modelled.  The function
also returns the OID of every request it issued. -/
def snmp_bulkwalk_go (endOid : List Nat) :
    List Nat → List VarBind → List (Option (List VarBind)) →
      List (List Nat) × Option (List VarBind)
  | req, _, [] => ([req], none)
  | req, acc, resp :: rest =>
    match resp with
    | none => ([req], some acc)
    | some binds =>
      let st := bulkScan endOid binds
      if st.2 then ([req], some (acc ++ st.1))
      else
        match binds.getLast? with
        | none => ([req], none)
        | some lastB =>
          let next := snmp_bulkwalk_go endOid lastB.name (acc ++ binds) rest
          (req :: next.1, next.2)

/-- `snmp_bulkwalk` (src/src/snmp.rs:97) on the single starting var bind the
collector always passes: `end_oid = next_sibling(start)` is fixed from the
request parameter before the loop, and the first request is the start OID. -/
def snmp_bulkwalk (start : VarBind) (responses : List (Option (List VarBind))) :
    List (List Nat) × Option (List VarBind) :=
  snmp_bulkwalk_go (next_sibling start.name) start.name [] responses

/-- C4's wording of the walk result: accumulate the bindings of successive
responses and stop at the first termination trigger — a binding whose OID is
lexicographically at or past `next_sibling(start)`, a binding with value
`EndOfMibView`, or a response with no bindings — including nothing at or after
the trigger. -/
def bulkwalkClaim (endOid : List Nat) : List (Option (List VarBind)) → Option (List VarBind)
  | [] => none
  | none :: _ => some []
  | some binds :: rest =>
    if binds.any (bulkTrigger endOid) then
      some (binds.takeWhile (fun b => ! bulkTrigger endOid b))
    else if binds.isEmpty then some []
    else (bulkwalkClaim endOid rest).map (fun l => binds ++ l)

/-- C4's wording of the request chain: the first `GetBulkRequest` starts at the
start OID, and each subsequent one starts at the OID of the last binding of
the previous response. -/
def bulkwalkClaimReqs (endOid : List Nat) :
    List Nat → List (Option (List VarBind)) → List (List Nat)
  | req, [] => [req]
  | req, none :: _ => [req]
  | req, some binds :: rest =>
    if binds.any (bulkTrigger endOid) then [req]
    else
      match binds.getLast? with
      | none => [req]
      | some lastB => req :: bulkwalkClaimReqs endOid lastB.name rest

theorem bulkScan_eq (endOid : List Nat) (l : List VarBind) :
    bulkScan endOid l =
      (l.takeWhile (fun b => ! bulkTrigger endOid b), l.any (bulkTrigger endOid)) := by
  induction l with
  | nil => rfl
  | cons b rest ih =>
    by_cases hb : bulkTrigger endOid b = true
    · simp [bulkScan, hb, List.takeWhile_cons, List.any_cons]
    · simp only [Bool.not_eq_true] at hb
      simp [bulkScan, hb, List.takeWhile_cons, List.any_cons, ih]

theorem bulkwalk_go_claim (endOid : List Nat) :
    ∀ (responses : List (Option (List VarBind))) (req : List Nat) (acc : List VarBind),
      (∀ o ∈ responses, ∀ l, o = some l → l ≠ []) →
      (snmp_bulkwalk_go endOid req acc responses).2 =
          (bulkwalkClaim endOid responses).map (fun l => acc ++ l) ∧
        (snmp_bulkwalk_go endOid req acc responses).1 =
          bulkwalkClaimReqs endOid req responses := by
  intro responses
  induction responses with
  | nil =>
    intro req acc h
    simp [snmp_bulkwalk_go, bulkwalkClaim, bulkwalkClaimReqs]
  | cons r rest ih =>
    intro req acc h
    match r with
    | none => simp [snmp_bulkwalk_go, bulkwalkClaim, bulkwalkClaimReqs]
    | some binds =>
      have hb : binds ≠ [] := h (some binds) (List.mem_cons_self _ _) binds rfl
      have hrest : ∀ o ∈ rest, ∀ l, o = some l → l ≠ [] :=
        fun o ho => h o (List.mem_cons_of_mem _ ho)
      by_cases htrig : binds.any (bulkTrigger endOid) = true
      · simp [snmp_bulkwalk_go, bulkwalkClaim, bulkwalkClaimReqs, bulkScan_eq, htrig]
      · simp only [Bool.not_eq_true] at htrig
        rcases hlast : binds.getLast? with _ | lastB
        · exact absurd (List.getLast?_eq_none_iff.mp hlast) hb
        · have hih := ih lastB.name (acc ++ binds) hrest
          constructor
          · simp only [snmp_bulkwalk_go, bulkwalkClaim, bulkScan_eq, htrig, hlast,
              List.isEmpty_eq_true, hb, if_false]
            rw [hih.1]
            cases bulkwalkClaim endOid rest <;> simp [List.append_assoc]
          · simp only [snmp_bulkwalk_go, bulkwalkClaimReqs, bulkScan_eq, htrig, hlast,
              List.isEmpty_eq_true, hb, if_false]
            rw [hih.2]
            simp

/-- C4: the bulk walk returns exactly the bindings accumulated before the first
termination trigger — it stops when a response binding's OID is
lexicographically at or past `next_sibling(start)`, when a binding's value is
`EndOfMibView`, or when a response carries no bindings — with nothing at or
after the trigger included, and each subsequent `GetBulkRequest` starts at the
OID of the last binding of the previous response (`bulkwalkClaim` and
`bulkwalkClaimReqs` spell out the claim's wording).  The hypothesis rules out
responses with an empty var-bind list, on which the source would panic before
terminating. -/
theorem c4_bulkwalk (start : VarBind) (responses : List (Option (List VarBind)))
    (h : ∀ o ∈ responses, ∀ l, o = some l → l ≠ []) :
    (snmp_bulkwalk start responses).2 =
        bulkwalkClaim (next_sibling start.name) responses ∧
      (snmp_bulkwalk start responses).1 =
        bulkwalkClaimReqs (next_sibling start.name) start.name responses := by
  have hgo := bulkwalk_go_claim (next_sibling start.name) responses start.name [] h
  refine ⟨?_, hgo.2⟩
  rw [show snmp_bulkwalk start responses =
    snmp_bulkwalk_go (next_sibling start.name) start.name [] responses from rfl, hgo.1]
  cases bulkwalkClaim (next_sibling start.name) responses <;> simp

def c4exStart : VarBind := { name := [1, 3], value := VarValue.Null }

def c4exResponses : List (Option (List VarBind)) :=
  [ some [{ name := [1, 3, 1], value := VarValue.Counter 5 }]
  , some [ { name := [1, 3, 2], value := VarValue.Counter 6 }
         , { name := [1, 4], value := VarValue.Null } ] ]

/-- Witness for C4: a two-response walk whose second response leaves the subtree
mid-list. -/
theorem c4_bulkwalk_witness :
    (snmp_bulkwalk c4exStart c4exResponses).2 =
        bulkwalkClaim (next_sibling c4exStart.name) c4exResponses ∧
      (snmp_bulkwalk c4exStart c4exResponses).1 =
        bulkwalkClaimReqs (next_sibling c4exStart.name) c4exStart.name c4exResponses :=
  c4_bulkwalk c4exStart c4exResponses (by decide)

/-- The `table_values.iter().find(..)` search of the collector join
(src/src/collector.rs:220): the first value binding whose OID's last component
equals the name index.  The closure unwraps each examined binding's last OID
component, so an empty OID among the examined bindings is a panic (outer
`none`); `some none` means no match, `some (some p)` the first match. -/
def findValueMatch (idx : Nat) : List (Nat × VarBind) → Option (Option (Nat × VarBind))
  | [] => some none
  | (t, vb) :: rest =>
    match vb.name.getLast? with
    | none => none
    | some l => if l = idx then some (some (t, vb)) else findValueMatch idx rest

/-- The `for (_, name_bind) in &table_names` join loop of one value column
(src/src/collector.rs:210): a name binding whose value is not `String` breaks
out of the loop (logged at error) keeping what was already produced; a
`String` name is joined against the value table by last OID component, a match
emits a reading (its timestamp is the value binding's), a miss appends the
name to the workaround list.  Panicking unwraps (empty OIDs) are the outer
`none`.  Returns the emitted readings and the missing list, both in names
order. -/
def joinNames (device : String) (table_values : List (Nat × VarBind)) :
    List (Nat × VarBind) → Option (List SnmpStatResult × List VarBind)
  | [] => some ([], [])
  | (_, nb) :: rest =>
    match nb.value with
    | VarValue.String _ =>
      match nb.name.getLast? with
      | none => none
      | some idx =>
        match findValueMatch idx table_values with
        | none => none
        | some none =>
          (joinNames device table_values rest).map (fun p => (p.1, nb :: p.2))
        | some (some (t, vb)) =>
          (joinNames device table_values rest).map (fun p =>
            ({ device := device, timestamp := t, key := nb, value := vb } :: p.1, p.2))
    | _ => some ([], [])

/-- Building the workaround request var binds (src/src/collector.rs:248): one per
missing name, each the OID of the first value-table binding with its last
component overwritten by the missing name's last component (`VarBind::new`
leaves the value `Null`); when the value table is empty every iteration just
logs and skips.  The `last_mut().unwrap()` / `last().unwrap()` panics are
`none`. -/
def buildWorkaroundReqs : Option (Nat × VarBind) → List VarBind → Option (List VarBind)
  | _, [] => some []
  | none, _ :: rest => buildWorkaroundReqs none rest
  | some fv, nb :: rest =>
    match fv.2.name.getLast?, nb.name.getLast? with
    | some _, some nl =>
      (buildWorkaroundReqs (some fv) rest).map
        (fun l => ({ name := fv.2.name.dropLast ++ [nl], value := VarValue.Null } : VarBind) :: l)
    | _, _ => none

/-- The zip-and-emit loop of the HPE Comware workaround
(src/src/collector.rs:276): pair the missing name binds positionally with the
`GetRequest` response data; a response value of `NoSuchInstance` is rewritten
to `BigCounter 0` (`set_value` keeps the OID) and one reading per pair is
emitted, carrying the response timestamp. -/
def workaroundReadings (device : String) (missing : List VarBind)
    (respData : List (Nat × VarBind)) : List SnmpStatResult :=
  (missing.zip respData).map fun p =>
    { device := device
      timestamp := p.2.1
      key := p.1
      value :=
        if p.2.2.value = VarValue.NoSuchInstance then
          { p.2.2 with value := VarValue.BigCounter 0 }
        else p.2.2 }

/-- One value-column iteration of the collector cycle (src/src/collector.rs:194):
join the instance walk against the value walk, then, if any names were
missing, build the workaround requests (skipped entirely when the value table
was empty) and emit the workaround readings from the `GetRequest` response
data `respData`.  Channel sends cannot fail (the receiver lives for the whole
process) and transport errors propagate to the supervisor; neither is
modelled. -/
def collectValueColumn (device : String) (table_names table_values : List (Nat × VarBind))
    (respData : List (Nat × VarBind)) : Option (List SnmpStatResult) :=
  match joinNames device table_values table_names with
  | none => none
  | some (direct, missing) =>
    if missing.isEmpty then some direct
    else
      match buildWorkaroundReqs table_values.head? missing with
      | none => none
      | some reqs =>
        if reqs.isEmpty then some direct
        else some (direct ++ workaroundReadings device missing respData)

theorem mem_of_head?_eq_some (l : List (Nat × VarBind)) (a : Nat × VarBind)
    (h : l.head? = some a) : a ∈ l := by
  cases l with
  | nil => simp at h
  | cons b t =>
    rw [List.head?_cons] at h
    rw [← (Option.some.injEq _ _).mp h]
    exact List.mem_cons_self _ _

theorem dropLast_append_single (l : List Nat) (a : Nat) : (l ++ [a]).dropLast = l := by
  simp

theorem getLast?_append_single (l : List Nat) (a : Nat) : (l ++ [a]).getLast? = some a := by
  simp

theorem findValueMatch_mem (idx : Nat) :
    ∀ (values : List (Nat × VarBind)) (t : Nat) (vb : VarBind),
      findValueMatch idx values = some (some (t, vb)) →
      (t, vb) ∈ values ∧ vb.name.getLast? = some idx := by
  intro values
  induction values with
  | nil => intro t vb h; simp [findValueMatch] at h
  | cons p rest ih =>
    obtain ⟨t0, v0⟩ := p
    intro t vb h
    rw [findValueMatch] at h
    split at h
    · exact absurd h (by simp)
    · rename_i l hl
      split at h
      · rename_i he
        rcases (Prod.mk.injEq _ _ _ _).mp
            ((Option.some.injEq _ _).mp ((Option.some.injEq _ _).mp h)) with ⟨ht, hvb⟩
        subst he
        subst ht
        subst hvb
        exact ⟨List.mem_cons_self _ _, hl⟩
      · rcases ih t vb h with ⟨hmem, hlst⟩
        exact ⟨List.mem_cons_of_mem _ hmem, hlst⟩

theorem joinNames_direct_mem (device : String) (values : List (Nat × VarBind)) :
    ∀ (names : List (Nat × VarBind)) (direct : List SnmpStatResult) (missing : List VarBind),
      joinNames device values names = some (direct, missing) →
      ∀ r ∈ direct, ∃ idx, r.key.name.getLast? = some idx ∧
        r.value.name.getLast? = some idx ∧ ∃ p ∈ values, r.value = p.2 := by
  intro names
  induction names with
  | nil =>
    intro direct missing h r hr
    rw [joinNames] at h
    rcases (Prod.mk.injEq _ _ _ _).mp ((Option.some.injEq _ _).mp h) with ⟨hd, hm⟩
    rw [← hd] at hr
    simp at hr
  | cons p rest ih =>
    obtain ⟨t0, nb⟩ := p
    intro direct missing h r hr
    rw [joinNames] at h
    split at h
    · split at h
      · exact absurd h (by simp)
      · rename_i idx hl
        split at h
        · exact absurd h (by simp)
        · rcases Option.map_eq_some'.mp h with ⟨q, hq, hpq⟩
          rcases (Prod.mk.injEq _ _ _ _).mp hpq with ⟨hd, hm⟩
          rw [← hd] at hr
          exact ih q.1 q.2 (by rw [hq]) r hr
        · rename_i t vb hfm
          rcases Option.map_eq_some'.mp h with ⟨q, hq, hpq⟩
          rcases (Prod.mk.injEq _ _ _ _).mp hpq with ⟨hd, hm⟩
          rw [← hd] at hr
          rcases List.mem_cons.mp hr with hr0 | hrq
          · rcases findValueMatch_mem idx values t vb hfm with ⟨hmem, hlst⟩
            subst hr0
            exact ⟨idx, hl, hlst, ⟨(t, vb), hmem, rfl⟩⟩
          · exact ih q.1 q.2 (by rw [hq]) r hrq
    · rcases (Prod.mk.injEq _ _ _ _).mp ((Option.some.injEq _ _).mp h) with ⟨hd, hm⟩
      rw [← hd] at hr
      simp at hr

theorem buildWorkaroundReqs_noValues :
    ∀ missing : List VarBind, buildWorkaroundReqs none missing = some [] := by
  intro missing
  induction missing with
  | nil => rfl
  | cons nb rest ih => rw [buildWorkaroundReqs, ih]

theorem workaround_mem (device : String) (fv : Nat × VarBind) :
    ∀ (missing reqs : List VarBind) (respData : List (Nat × VarBind)),
      buildWorkaroundReqs (some fv) missing = some reqs →
      (∀ p ∈ respData.zip reqs, p.1.2.name = p.2.name) →
      ∀ r ∈ workaroundReadings device missing respData,
        ∃ nl, r.key.name.getLast? = some nl ∧
          r.value.name = fv.2.name.dropLast ++ [nl] := by
  intro missing
  induction missing with
  | nil =>
    intro reqs respData hreq hecho r hr
    simp [workaroundReadings] at hr
  | cons nb mrest ih =>
    intro reqs respData hreq hecho r hr
    rw [buildWorkaroundReqs] at hreq
    split at hreq
    · rename_i fl nl hfl hnl
      rcases Option.map_eq_some'.mp hreq with ⟨rrest, hrrest, hreqs⟩
      rcases respData with _ | ⟨w, wrest⟩
      · simp [workaroundReadings] at hr
      · rw [workaroundReadings] at hr
        rw [List.zip_cons_cons, List.map_cons] at hr
        rcases List.mem_cons.mp hr with hr0 | hrt
        · refine ⟨nl, ?_, ?_⟩
          · rw [hr0]; exact hnl
          · have hw : w.2.name =
                ({ name := fv.2.name.dropLast ++ [nl],
                   value := VarValue.Null } : VarBind).name := by
              refine hecho (w, _) ?_
              rw [← hreqs]
              rw [List.zip_cons_cons]
              exact List.mem_cons_self _ _
            have hrv : r.value.name = w.2.name := by
              rw [hr0]
              by_cases hnsi : w.2.value = VarValue.NoSuchInstance <;> simp [hnsi]
            rw [hrv, hw]
        · refine ih rrest wrest hrrest ?_ r hrt
          intro p hp
          refine hecho p ?_
          rw [← hreqs]
          rw [List.zip_cons_cons]
          exact List.mem_cons_of_mem _ hp
    · exact absurd hreq (by simp)

/-- C3: every reading emitted for one value column joins on the last OID
component — the key bind's and value bind's OIDs share their last component —
and the value bind either is a binding of the bulk walk of the value column,
or carries the OID of the value column followed by that last component and
came from the workaround `GetRequest`.  The hypotheses state the SNMP table
shape (every walked value binding's OID is the column OID `oidV` plus one
index component) and that `GetRequest` response bindings echo the requested
OIDs positionally. -/
theorem c3_join_correctness (device : String) (oidV : List Nat)
    (table_names table_values respData : List (Nat × VarBind))
    (out : List SnmpStatResult)
    (hshape : ∀ p ∈ table_values, ∃ i, p.2.name = oidV ++ [i])
    (hecho : ∀ (dm : List SnmpStatResult × List VarBind) (reqs : List VarBind),
      joinNames device table_values table_names = some dm →
      buildWorkaroundReqs table_values.head? dm.2 = some reqs →
      ∀ p ∈ respData.zip reqs, p.1.2.name = p.2.name)
    (hout : collectValueColumn device table_names table_values respData = some out) :
    ∀ r ∈ out, ∃ k, r.key.name.getLast? = some k ∧ r.value.name.getLast? = some k ∧
      ((∃ p ∈ table_values, r.value = p.2) ∨ r.value.name = oidV ++ [k]) := by
  intro r hr
  rw [collectValueColumn] at hout
  split at hout
  · exact absurd hout (by simp)
  · rename_i direct missing hjn
    have hdirect : ∀ r ∈ direct, ∃ k, r.key.name.getLast? = some k ∧
        r.value.name.getLast? = some k ∧
        ((∃ p ∈ table_values, r.value = p.2) ∨ r.value.name = oidV ++ [k]) := by
      intro r hr
      rcases joinNames_direct_mem device table_values table_names direct missing hjn r hr with
        ⟨idx, h1, h2, h3⟩
      exact ⟨idx, h1, h2, Or.inl h3⟩
    by_cases hme : missing.isEmpty = true
    · rw [if_pos hme] at hout
      rw [← (Option.some.injEq _ _).mp hout] at hr
      exact hdirect r hr
    · rw [if_neg hme] at hout
      split at hout
      · exact absurd hout (by simp)
      · rename_i reqs hbw
        by_cases hre : reqs.isEmpty = true
        · rw [if_pos hre] at hout
          rw [← (Option.some.injEq _ _).mp hout] at hr
          exact hdirect r hr
        · rw [if_neg hre] at hout
          rw [← (Option.some.injEq _ _).mp hout] at hr
          rcases List.mem_append.mp hr with hrd | hrw
          · exact hdirect r hrd
          · rcases hhd : table_values.head? with _ | fv
            · rw [hhd] at hbw
              rw [buildWorkaroundReqs_noValues missing] at hbw
              rw [← (Option.some.injEq _ _).mp hbw] at hre
              exact absurd rfl hre
            · rw [hhd] at hbw
              have hecho2 : ∀ p ∈ respData.zip reqs, p.1.2.name = p.2.name := by
                refine hecho (direct, missing) reqs hjn ?_
                rw [hhd]
                exact hbw
              rcases workaround_mem device fv missing reqs respData hbw hecho2 r hrw with
                ⟨nl, hk, hvn⟩
              have hfv : fv ∈ table_values := mem_of_head?_eq_some _ _ hhd
              rcases hshape fv hfv with ⟨i, hfvn⟩
              have hdrop : fv.2.name.dropLast = oidV := by
                rw [hfvn]
                exact dropLast_append_single _ _
              refine ⟨nl, hk, ?_, Or.inr (by rw [hvn, hdrop])⟩
              rw [hvn, hdrop]
              exact getLast?_append_single _ _

def c3exNames : List (Nat × VarBind) :=
  [ (0, { name := [4, 1, 1], value := VarValue.String "Eth0" })
  , (0, { name := [4, 1, 2], value := VarValue.String "Eth1" }) ]

def c3exValues : List (Nat × VarBind) :=
  [(3, { name := [5, 1, 1], value := VarValue.Counter 100 })]

def c3exResp : List (Nat × VarBind) :=
  [(9, { name := [5, 1, 2], value := VarValue.NoSuchInstance })]

def c3exOut : List SnmpStatResult :=
  [ { device := "d", timestamp := 3
      key := { name := [4, 1, 1], value := VarValue.String "Eth0" }
      value := { name := [5, 1, 1], value := VarValue.Counter 100 } }
  , { device := "d", timestamp := 9
      key := { name := [4, 1, 2], value := VarValue.String "Eth1" }
      value := { name := [5, 1, 2], value := VarValue.BigCounter 0 } } ]

/-- Witness for C3: the section 8 scenario 3 shape — one matched row and one
workaround row — at the reading emitted through the workaround. -/
theorem c3_join_correctness_witness :
    ∃ k, (c3exOut.get ⟨1, by decide⟩).key.name.getLast? = some k ∧
      (c3exOut.get ⟨1, by decide⟩).value.name.getLast? = some k ∧
      ((∃ p ∈ c3exValues, (c3exOut.get ⟨1, by decide⟩).value = p.2) ∨
        (c3exOut.get ⟨1, by decide⟩).value.name = [5, 1] ++ [k]) :=
  c3_join_correctness "d" [5, 1] c3exNames c3exValues c3exResp c3exOut
    (by
      intro p hp
      rcases List.mem_singleton.mp hp with rfl
      exact ⟨1, rfl⟩)
    (by
      intro dm reqs hdm hbw p hp
      have h1 : (([{ device := "d", timestamp := 3
                     key := { name := [4, 1, 1], value := VarValue.String "Eth0" }
                     value := { name := [5, 1, 1], value := VarValue.Counter 100 } }],
          [({ name := [4, 1, 2], value := VarValue.String "Eth1" } : VarBind)]) :
            List SnmpStatResult × List VarBind) = dm :=
        (Option.some.injEq _ _).mp hdm
      subst h1
      have h2 : [({ name := [5, 1, 2], value := VarValue.Null } : VarBind)] = reqs :=
        (Option.some.injEq _ _).mp hbw
      subst h2
      rcases List.mem_singleton.mp hp with rfl
      rfl)
    (by decide)
    (c3exOut.get ⟨1, by decide⟩) (by decide)

/-- C5: for every reading emitted through the HPE Comware workaround, if the raw
`GetRequest` response value at its position was `NoSuchInstance` the emitted
value is `BigCounter 0`, every other response value is emitted unchanged, and
the response binding's OID is kept either way. -/
theorem c5_workaround_rewrite (device : String) (missing : List VarBind)
    (respData : List (Nat × VarBind)) (i : Nat)
    (hi : i < (workaroundReadings device missing respData).length)
    (hw : i < respData.length) :
    ((workaroundReadings device missing respData).get ⟨i, hi⟩).value.value =
        (if (respData.get ⟨i, hw⟩).2.value = VarValue.NoSuchInstance then
          VarValue.BigCounter 0
        else (respData.get ⟨i, hw⟩).2.value) ∧
      ((workaroundReadings device missing respData).get ⟨i, hi⟩).value.name =
        (respData.get ⟨i, hw⟩).2.name := by
  induction missing generalizing respData i with
  | nil => simp [workaroundReadings] at hi
  | cons nb mrest ih =>
    rcases respData with _ | ⟨w, wrest⟩
    · simp [workaroundReadings] at hi
    · rcases i with _ | j
      · by_cases hnsi : w.2.value = VarValue.NoSuchInstance <;>
          simp [workaroundReadings, hnsi]
      · have hi2 : j < (workaroundReadings device mrest wrest).length := by
          simpa [workaroundReadings] using hi
        have hw2 : j < wrest.length := by simpa using hw
        have := ih wrest j hi2 hw2
        simpa [workaroundReadings] using this

/-- Witness for C5: the concrete workaround pair of the C3 scenario, whose
`NoSuchInstance` response is emitted as `BigCounter 0` with its OID kept. -/
theorem c5_workaround_rewrite_witness :
    ((workaroundReadings "d" [{ name := [4, 1, 2], value := VarValue.String "Eth1" }]
          c3exResp).get ⟨0, by decide⟩).value.value =
        (if (c3exResp.get ⟨0, by decide⟩).2.value = VarValue.NoSuchInstance then
          VarValue.BigCounter 0
        else (c3exResp.get ⟨0, by decide⟩).2.value) ∧
      ((workaroundReadings "d" [{ name := [4, 1, 2], value := VarValue.String "Eth1" }]
          c3exResp).get ⟨0, by decide⟩).value.name =
        (c3exResp.get ⟨0, by decide⟩).2.name :=
  c5_workaround_rewrite "d" [{ name := [4, 1, 2], value := VarValue.String "Eth1" }]
    c3exResp 0 (by decide) (by decide)

/-- C6's wording of "value of variant String". -/
def isStringValue : VarValue → Bool
  | VarValue.String _ => true
  | _ => false

def c6exNames : List (Nat × VarBind) :=
  [ (0, { name := [1, 1], value := VarValue.String "A" })
  , (0, { name := [1, 2], value := VarValue.Int 5 }) ]

def c6exValues : List (Nat × VarBind) :=
  [(7, { name := [2, 1], value := VarValue.Counter 100 })]

/-- Counterexample to C6 as stated: an instance walk whose second binding is not a
`String` still emits a reading for the column — the binding before the
non-String one is joined and emitted, so the instance column is not abandoned
without readings. -/
theorem c6_counterexample :
    (∃ p ∈ c6exNames, isStringValue p.2.value = false) ∧
      collectValueColumn "d" c6exNames c6exValues [] =
        some [{ device := "d", timestamp := 7
                key := { name := [1, 1], value := VarValue.String "A" }
                value := { name := [2, 1], value := VarValue.Counter 100 } }] := by
  decide

/-- C6 (amended): a non-String binding in the instance walk makes the join loop
stop at that binding for the current value column (logged at error): the
bindings after it contribute nothing, the bindings before it are processed
exactly as if the walk had ended there, and the loop returns normally rather
than failing the cycle. -/
theorem c6_nonstring_skips_rest (device : String) (values : List (Nat × VarBind))
    (pre rest : List (Nat × VarBind)) (t : Nat) (bad : VarBind)
    (h : isStringValue bad.value = false) :
    joinNames device values (pre ++ (t, bad) :: rest) = joinNames device values pre := by
  induction pre with
  | nil =>
    rw [List.nil_append]
    cases hv : bad.value
    case String s => rw [hv] at h; simp [isStringValue] at h
    all_goals simp [joinNames, hv]
  | cons p pr ih =>
    obtain ⟨t0, nb⟩ := p
    rw [List.cons_append]
    simp only [joinNames]
    rw [ih]

/-- Witness for C6 (amended): the concrete two-binding instance walk of the C6
counterexample, where the trailing `Int` binding is skipped. -/
theorem c6_nonstring_skips_rest_witness :
    joinNames "d" c6exValues
        ([(0, { name := [1, 1], value := VarValue.String "A" })] ++
          (0, { name := [1, 2], value := VarValue.Int 5 }) :: []) =
      joinNames "d" c6exValues [(0, { name := [1, 1], value := VarValue.String "A" })] :=
  c6_nonstring_skips_rest "d" c6exValues
    [(0, { name := [1, 1], value := VarValue.String "A" })] [] 0
    { name := [1, 2], value := VarValue.Int 5 } (by decide)

/-- `carbon_send` (src/src/output.rs:60) from an observation point at which the
producers are quiescent: `queue` is the channel content (FIFO) and `outcomes`
the success of each successive socket write.  Each iteration receives the next
metric and writes its line; a failed write sends the metric back onto the
channel — enqueueing it at the tail — and returns the error to the supervisor.
Blocking on an empty channel, or exhausting the modelled write outcomes, is
the observation point.  Returns the metrics written in order, the channel
content at the end, and whether a write error was returned. -/
def carbon_send_run :
    List Bool → List CarbonMetricValue →
      List CarbonMetricValue × List CarbonMetricValue × Bool
  | _, [] => ([], [], false)
  | [], m :: q => ([], m :: q, false)
  | ok :: outs, m :: q =>
    if ok then
      let next := carbon_send_run outs q
      (m :: next.1, next.2.1, next.2.2)
    else ([], q ++ [m], true)

/-- C7: every metric accepted from the sender's channel is either written to the
socket or still present in the channel at the observation point — the accepted
multiset equals written plus remaining (stated as a permutation, so nothing is
dropped or duplicated) — and when a write error is returned, exactly the
in-flight metric was re-enqueued before returning: the writes are a prefix of
the queue, the failed metric is the next element, and the remaining channel
holds the rest followed by that re-enqueued metric. -/
theorem c7_sender_no_silent_drop (outs : List Bool) (q : List CarbonMetricValue) :
    ((carbon_send_run outs q).1 ++ (carbon_send_run outs q).2.1).Perm q ∧
      ((carbon_send_run outs q).2.2 = true →
        ∃ pre m rest, q = pre ++ m :: rest ∧ (carbon_send_run outs q).1 = pre ∧
          (carbon_send_run outs q).2.1 = rest ++ [m]) := by
  induction q generalizing outs with
  | nil =>
    rcases outs with _ | ⟨ok, outs⟩ <;> exact ⟨by simp [carbon_send_run], by simp [carbon_send_run]⟩
  | cons m q ih =>
    rcases outs with _ | ⟨ok, outs⟩
    · exact ⟨by simp [carbon_send_run], by simp [carbon_send_run]⟩
    · by_cases hok : ok = true
      · subst hok
        rcases ih outs with ⟨hperm, herr⟩
        constructor
        · simpa [carbon_send_run] using hperm.cons m
        · intro he
          rw [show (carbon_send_run (true :: outs) (m :: q)).2.2 =
            (carbon_send_run outs q).2.2 from by simp [carbon_send_run]] at he
          rcases herr he with ⟨pre, mm, rest, hq, hw, hrem⟩
          refine ⟨m :: pre, mm, rest, by rw [hq, List.cons_append], ?_, ?_⟩
          · simp [carbon_send_run, hw]
          · simp [carbon_send_run, hrem]
      · rw [Bool.not_eq_true] at hok
        subst hok
        constructor
        · simp only [carbon_send_run]
          simp
        · intro _
          exact ⟨[], m, q, rfl, by simp [carbon_send_run], by simp [carbon_send_run]⟩

def c7exMetric : CarbonMetricValue := { timestamp := 1, metric := "p.d.k", value := "42" }

/-- Witness for C7: a single metric whose only write attempt fails is re-enqueued
and reported as the in-flight failure. -/
theorem c7_sender_no_silent_drop_witness :
    ∃ pre m rest, [c7exMetric] = pre ++ m :: rest ∧
      (carbon_send_run [false] [c7exMetric]).1 = pre ∧
      (carbon_send_run [false] [c7exMetric]).2.1 = rest ++ [m] :=
  (c7_sender_no_silent_drop [false] [c7exMetric]).2 (by decide)

end SnmpCollector
